import Mathlib

/-!
Verification of the knobbler radial input engine.

Shallow embedding of the pointer-to-value resolution code of the repository
(`src/knobbler.tsx` with its three components `MediKnobbler` (half-circle,
axis based), `Knobbler` (radial) and `DateKnobbler`, plus the radial
`MediKnobbler` of `src/medi-knobbler.tsx`).

JavaScript numbers are modelled as exact rationals (where the code is purely
rational, axis-based variant) or exact reals (where the code uses
`Math.hypot` / `Math.atan2`).  JS semantics modelled explicitly:
`Math.round x = ⌊x + 1/2⌋` (half toward +∞), `%` truncates toward zero,
`parseFloat(x.toFixed(d))` rounds half toward +∞ at `d` fractional digits,
`new Date` normalizes month/day overflow on the proleptic Gregorian calendar.
-/

namespace Knobbler

/-- JS `Math.round`: round half toward positive infinity. -/
def jround {α : Type} [LinearOrderedField α] [FloorRing α] (x : α) : ℤ :=
  ⌊x + 1 / 2⌋

/-- JS truncation toward zero, used by the JS `%` operator. -/
def jsTrunc {α : Type} [LinearOrderedField α] [FloorRing α] (x : α) : ℤ :=
  if 0 ≤ x then ⌊x⌋ else -⌊-x⌋

/-- JS remainder `a % b`: sign follows the dividend (truncated division). -/
def jsMod {α : Type} [LinearOrderedField α] [FloorRing α] (a b : α) : α :=
  a - b * jsTrunc (a / b)

/-- JS `parseFloat(x.toFixed(d))`: round to `d` fractional digits, ties toward
positive infinity (ECMAScript picks the larger candidate). -/
def toFixed {α : Type} [LinearOrderedField α] [FloorRing α] (d : ℕ) (x : α) : α :=
  ((jround (x * 10 ^ d) : ℤ) : α) / 10 ^ d

/-- Source `Math.hypot dx dy`. -/
noncomputable def jsHypot (a b : ℝ) : ℝ := Real.sqrt (a * a + b * b)

open Real in
/-- JS `Math.atan2 y x` (radians), by the usual quadrant case split.
Signed zeros do not exist in `ℝ`; `atan2 0 0 = 0` as in JS for `+0`. -/
noncomputable def jsAtan2 (y x : ℝ) : ℝ :=
  if 0 < x then arctan (y / x)
  else if x < 0 then
    (if 0 ≤ y then arctan (y / x) + π else arctan (y / x) - π)
  else
    (if 0 < y then π / 2 else if y < 0 then -π / 2 else 0)

/-- The two lines shared by every variant:
`let ang = (Math.atan2(dy, dx) * 180) / Math.PI; if (ang < 0) ang += 360;`. -/
noncomputable def jsAngleDeg (dx dy : ℝ) : ℝ :=
  let a := jsAtan2 dy dx * 180 / Real.pi
  if a < 0 then a + 360 else a

/-- Fractional-digit count of a reduced denominator: the least `n` with
`d ∣ 10 ^ n`, computed by stripping factors of `gcd d 10`; `0` when `d` has
a prime factor other than 2 and 5 (then the JS decimal expansion does not
terminate, out of the modelled scope).  The fuel argument (`d` itself at the
root call) bounds the recursion. -/
def denDigitsAux : ℕ → ℕ → ℕ
  | 0, _ => 0
  | fuel + 1, d =>
    if d ≤ 1 then 0
    else
      let g := Nat.gcd d 10
      if g = 1 then 0 else 1 + denDigitsAux fuel (d / g)

/-- Number of fractional digits of a step size, modelling
`s.toString().split('.')[1]?.length || 0` for numbers whose decimal
expansion terminates (all step sizes in scope do). -/
def fracDigits (q : ℚ) : ℕ :=
  denDigitsAux q.den q.den

/-- Source `precisionSteps && precisionSteps.length > 0 ? precisionSteps : [precisionStep]`,
the effective step-band list shared by all numeric variants. -/
def effSteps (ps : Option (List ℚ)) (precisionStep : ℚ) : List ℚ :=
  match ps with
  | some l => if l.isEmpty then [precisionStep] else l
  | none => [precisionStep]

/-- The JS truthiness test `precisionSteps && precisionSteps.length`. -/
def psActive (ps : Option (List ℚ)) : Bool :=
  match ps with
  | some l => !l.isEmpty
  | none => false

/-- Source `Math.max(...steps.map(s => s.toString().split('.')[1]?.length || 0))`. -/
def stepsDecimals (steps : List ℚ) : ℕ :=
  (steps.map fracDigits).foldr max 0

/-- The band-index computation shared verbatim by all three variants:
`Math.min(bands - 1, Math.floor((dist - deadzone) / bandWidth))`.
Note: there is no lower clamp at 0 in the source. -/
def bandIdx {α : Type} [LinearOrderedField α] [FloorRing α]
    (bands : ℤ) (deadzone bandWidth dist : α) : ℤ :=
  min (bands - 1) ⌊(dist - deadzone) / bandWidth⌋

/-- JS array indexing `steps[idx]` with an `Int` index: out-of-bounds
(in particular any negative index) yields `undefined`, modelled as `none`. -/
def jsIndex (l : List ℚ) (i : ℤ) : Option ℚ :=
  if 0 ≤ i then l[i.toNat]? else none

/-! ## The radial `Knobbler` component (second component of `knobbler.tsx`) -/

/-- Construction props of `Knobbler` (those read by `valueFromPoint`),
with their defaults recorded at each use site.  `precisionSteps = none`
models the prop being omitted (`undefined`). -/
structure KnobCfg where
  min : ℚ := 0
  max : ℚ := 12
  tickStep : ℚ := 1
  precisionStep : ℚ := 1 / 10
  precisionDistance : ℚ := 30
  precisionSteps : Option (List ℚ) := none
  deadzone : ℚ := 15
  startAngle : ℚ := -90
  arcLength : ℚ := 360
  diameter : ℚ := 150

/-- Source `center = { x: radius, y: radius }` with `radius = diameter / 2`. -/
def kCenter (c : KnobCfg) : ℚ := c.diameter / 2

/-- Source `innerR = effectiveRadius - 5` with `effectiveRadius = radius - padding`,
`padding = 4`. -/
def kInnerR (c : KnobCfg) : ℚ := c.diameter / 2 - 4 - 5

/-- Derived `steps` of `Knobbler`. -/
def kSteps (c : KnobCfg) : List ℚ := effSteps c.precisionSteps c.precisionStep

/-- Derived `decimals` of `Knobbler`. -/
def kDecimals (c : KnobCfg) : ℕ := stepsDecimals (kSteps c)

/-- Source `bands = steps.length`. -/
def kBands (c : KnobCfg) : ℕ := (kSteps c).length

/-- Source `maxRange = Math.max(innerR - deadzone, 0)`. -/
def kMaxRange (c : KnobCfg) : ℚ := max (kInnerR c - c.deadzone) 0

/-- Source `bandWidth = bands > 0 ? maxRange / bands : 0`. -/
def kBandWidth (c : KnobCfg) : ℚ :=
  if 0 < kBands c then kMaxRange c / kBands c else 0

/-- Source `dist = Math.hypot(x - center.x, y - center.y)`. -/
noncomputable def kDistAt (c : KnobCfg) (x y : ℝ) : ℝ :=
  jsHypot (x - (kCenter c : ℝ)) (y - (kCenter c : ℝ))

/-- The normalized pointer angle of `Knobbler.valueFromPoint`. -/
noncomputable def kAngAt (c : KnobCfg) (x y : ℝ) : ℝ :=
  jsAngleDeg (x - (kCenter c : ℝ)) (y - (kCenter c : ℝ))

/-- Source `let rel = (ang - startAngle + 360) % 360; if (rel > arcLength) rel = arcLength;`. -/
noncomputable def kRel (c : KnobCfg) (ang : ℝ) : ℝ :=
  let r := jsMod (ang - (c.startAngle : ℝ) + 360) 360
  if (c.arcLength : ℝ) < r then (c.arcLength : ℝ) else r

/-- Source `raw = min + (rel / arcLength) * (max - min)`. -/
noncomputable def kRaw (c : KnobCfg) (ang : ℝ) : ℝ :=
  (c.min : ℝ) + kRel c ang / (c.arcLength : ℝ) * ((c.max : ℝ) - (c.min : ℝ))

/-- The step-size selection of `Knobbler.valueFromPoint` (lines 315-321).
Inside `valueFromPoint` the band index is provably in bounds (the deadzone
early-return guarantees `dist ≥ deadzone`), so the JS lookup `steps[idx]`
is modelled total here with default `0`; the axis-based variant, which can
reach a negative index, is modelled with `jsIndex` instead. -/
noncomputable def kStepAt (c : KnobCfg) (dist : ℝ) : ℚ :=
  if psActive c.precisionSteps then
    (kSteps c).getD (bandIdx (kBands c : ℤ) (c.deadzone : ℝ) (kBandWidth c : ℝ) dist).toNat 0
  else if (c.precisionDistance : ℝ) < dist then c.precisionStep
  else c.tickStep

/-- Source `snapped = Math.round(raw / stepSize) * stepSize`. -/
noncomputable def kSnapped (c : KnobCfg) (dist ang : ℝ) : ℝ :=
  ((jround (kRaw c ang / (kStepAt c dist : ℝ)) : ℤ) : ℝ) * (kStepAt c dist : ℝ)

/-- Source `Knobbler.valueFromPoint` (lines 305-327).  Note the source returns
`parseFloat(snapped.toFixed(decimals))` with NO clamp to `[min, max]`. -/
noncomputable def kValueFromPoint (c : KnobCfg) (x y prev : ℝ) : ℝ :=
  if kDistAt c x y < (c.deadzone : ℝ) then prev
  else toFixed (kDecimals c) (kSnapped c (kDistAt c x y) (kAngAt c x y))

/-- Source `angleForValue` of `Knobbler` (lines 286-289). -/
noncomputable def kAngleForValue (c : KnobCfg) (v : ℝ) : ℝ :=
  (c.startAngle : ℝ) + (v - (c.min : ℝ)) / ((c.max : ℝ) - (c.min : ℝ)) * (c.arcLength : ℝ)

/-- The unsnapped angle-to-raw-value mapping of `Knobbler.valueFromPoint`
(lines 312-314), as a function of the normalized pointer angle. -/
noncomputable def kValueAtAngle (c : KnobCfg) (ang : ℝ) : ℝ := kRaw c ang

/-! ## The half-circle `MediKnobbler` (first component of `knobbler.tsx`)

This variant maps the pointer to a value along ONE axis (no `hypot`, no
`atan2`), so its `valueFromPoint` is a purely rational, computable function.
Its step lookup `steps[idx]` can reach a negative index (there is no deadzone
early-return in this variant), in which case JS yields `undefined` and the
arithmetic poisons to `NaN`; that is modelled by an `Option` result. -/

inductive Orient where
  | top | bottom | left | right
deriving DecidableEq

structure MediKCfg where
  min : ℚ := 0
  max : ℚ := 12
  tickStep : ℚ := 1
  precisionStep : ℚ := 1 / 10
  precisionDistance : ℚ := 30
  precisionSteps : Option (List ℚ) := none
  deadzone : ℚ := 15
  diameter : ℚ := 150
  orientation : Orient

def mkCenter (c : MediKCfg) : ℚ := c.diameter / 2

/-- Source `innerR = (radius - padding) - 5` with `padding = 4`. -/
def mkInnerR (c : MediKCfg) : ℚ := c.diameter / 2 - 4 - 5

def mkSteps (c : MediKCfg) : List ℚ := effSteps c.precisionSteps c.precisionStep

def mkDecimals (c : MediKCfg) : ℕ := stepsDecimals (mkSteps c)

def mkBands (c : MediKCfg) : ℕ := (mkSteps c).length

def mkMaxRange (c : MediKCfg) : ℚ := max (mkInnerR c - c.deadzone) 0

def mkBandWidth (c : MediKCfg) : ℚ :=
  if 0 < mkBands c then mkMaxRange c / mkBands c else 0

/-- The fraction along the control axis (lines 100-110):
horizontal drag for `top`/`bottom`, inverted vertical drag otherwise. -/
def mkFraction (c : MediKCfg) (x y : ℚ) : ℚ :=
  if c.orientation = .top ∨ c.orientation = .bottom then
    (min (max x 0) c.diameter) / c.diameter
  else
    1 - (min (max y 0) c.diameter) / c.diameter

/-- The single-axis distance from center (lines 115-117). -/
def mkDist (c : MediKCfg) (x y : ℚ) : ℚ :=
  if c.orientation = .top ∨ c.orientation = .bottom then
    |x - mkCenter c|
  else
    |y - mkCenter c|

/-- The step-size selection (lines 113-124); `none` models the JS
`undefined` obtained from `steps[idx]` at a negative index. -/
def mkStepAt (c : MediKCfg) (dist : ℚ) : Option ℚ :=
  if psActive c.precisionSteps then
    jsIndex (mkSteps c) (bandIdx (mkBands c : ℤ) c.deadzone (mkBandWidth c) dist)
  else if c.precisionDistance < dist then some c.precisionStep
  else some c.tickStep

/-- Source `MediKnobbler.valueFromPoint` of `knobbler.tsx` (lines 98-132).
There is NO deadzone check: the value is resolved from the axis fraction
at every pointer position.  `none` models a `NaN` result (undefined step). -/
def mkValueFromPoint (c : MediKCfg) (x y _prev : ℚ) : Option ℚ :=
  let raw := c.min + mkFraction c x y * (c.max - c.min)
  (mkStepAt c (mkDist c x y)).map fun stepSize =>
    let snapped := ((jround (raw / stepSize) : ℤ) : ℚ) * stepSize
    toFixed (mkDecimals c) (min c.max (max c.min snapped))

/-! ## The radial `MediKnobbler` of `medi-knobbler.tsx` -/

inductive Direction where
  | normal | reverse
deriving DecidableEq

structure MediCfg where
  min : ℚ := 0
  max : ℚ := 12
  tickStep : ℚ := 1
  precisionStep : ℚ := 1 / 10
  precisionDistance : ℚ := 30
  precisionSteps : Option (List ℚ) := none
  deadzone : ℚ := 15
  diameter : ℚ := 150
  orientation : Orient
  direction : Direction := .normal

/-- Base half-circle angles per orientation (lines 56-64). -/
def mediBase (o : Orient) : ℚ × ℚ :=
  match o with
  | .top => (180, 180)
  | .bottom => (0, 180)
  | .left => (90, 180)
  | .right => (-90, 180)

/-- Source `startAngle` after the reverse flip (lines 67-72). -/
def mediStartAngle (c : MediCfg) : ℚ :=
  if c.direction = .reverse then (mediBase c.orientation).1 + (mediBase c.orientation).2
  else (mediBase c.orientation).1

/-- Source `arcLength` after the reverse flip (lines 67-72). -/
def mediArcLength (c : MediCfg) : ℚ :=
  if c.direction = .reverse then -(mediBase c.orientation).2
  else (mediBase c.orientation).2

def mediCenter (c : MediCfg) : ℚ := c.diameter / 2

/-- Source `innerR = diameter / 2 - 9`. -/
def mediInnerR (c : MediCfg) : ℚ := c.diameter / 2 - 9

def mediSteps (c : MediCfg) : List ℚ := effSteps c.precisionSteps c.precisionStep

def mediDecimals (c : MediCfg) : ℕ := stepsDecimals (mediSteps c)

def mediBands (c : MediCfg) : ℕ := (mediSteps c).length

def mediMaxRange (c : MediCfg) : ℚ := max (mediInnerR c - c.deadzone) 0

def mediBandWidth (c : MediCfg) : ℚ :=
  if 0 < mediBands c then mediMaxRange c / mediBands c else 0

/-- Source `fx = orientation === 'right' ? x + diameter / 2 : x` (line 85). -/
noncomputable def mediFx (c : MediCfg) (x : ℝ) : ℝ :=
  if c.orientation = .right then x + (c.diameter : ℝ) / 2 else x

/-- Source `fy = orientation === 'bottom' ? y + diameter / 2 : y` (line 86). -/
noncomputable def mediFy (c : MediCfg) (y : ℝ) : ℝ :=
  if c.orientation = .bottom then y + (c.diameter : ℝ) / 2 else y

noncomputable def mediDistAt (c : MediCfg) (x y : ℝ) : ℝ :=
  jsHypot (mediFx c x - (mediCenter c : ℝ)) (mediFy c y - (mediCenter c : ℝ))

noncomputable def mediAngAt (c : MediCfg) (x y : ℝ) : ℝ :=
  jsAngleDeg (mediFx c x - (mediCenter c : ℝ)) (mediFy c y - (mediCenter c : ℝ))

/-- Reverse-aware relative sweep (lines 95-99):
`rel = arcLength >= 0 ? (ang - startAngle + 360) % 360 : (startAngle - ang + 360) % 360;
rel = Math.min(rel, absLen);`. -/
noncomputable def mediRel (c : MediCfg) (ang : ℝ) : ℝ :=
  let r :=
    if 0 ≤ (mediArcLength c : ℝ) then jsMod (ang - (mediStartAngle c : ℝ) + 360) 360
    else jsMod ((mediStartAngle c : ℝ) - ang + 360) 360
  min r |(mediArcLength c : ℝ)|

/-- Source `raw = min + (rel / absLen) * (max - min)` (line 101). -/
noncomputable def mediRaw (c : MediCfg) (ang : ℝ) : ℝ :=
  (c.min : ℝ) + mediRel c ang / |(mediArcLength c : ℝ)| * ((c.max : ℝ) - (c.min : ℝ))

/-- Step selection (lines 103-109); the band index is in bounds here since
the deadzone early-return guarantees `dist ≥ deadzone`. -/
noncomputable def mediStepAt (c : MediCfg) (dist : ℝ) : ℚ :=
  if psActive c.precisionSteps then
    (mediSteps c).getD (bandIdx (mediBands c : ℤ) (c.deadzone : ℝ) (mediBandWidth c : ℝ) dist).toNat 0
  else if (c.precisionDistance : ℝ) < dist then c.precisionStep
  else c.tickStep

noncomputable def mediSnapped (c : MediCfg) (dist ang : ℝ) : ℝ :=
  ((jround (mediRaw c ang / (mediStepAt c dist : ℝ)) : ℤ) : ℝ) * (mediStepAt c dist : ℝ)

/-- Source `MediKnobbler.valueFromPoint` of `medi-knobbler.tsx` (lines 84-113):
deadzone freeze, then
`parseFloat(Math.min(max, Math.max(min, snapped)).toFixed(decimals))`. -/
noncomputable def mediValueFromPoint (c : MediCfg) (x y prev : ℝ) : ℝ :=
  if mediDistAt c x y < (c.deadzone : ℝ) then prev
  else
    toFixed (mediDecimals c)
      (min (c.max : ℝ) (max (c.min : ℝ) (mediSnapped c (mediDistAt c x y) (mediAngAt c x y))))

/-! ## Proleptic Gregorian calendar (the JS `Date` arithmetic used by
`DateKnobbler`): day counts from civil dates and back, so that
`new Date(y, m, d)` overflow normalization and `Date` comparison are exact. -/

/-- Days since 1970-01-01 of the civil date `(y, m, d)` with `m ∈ 1..12`
(valid `d`); the standard era/year-of-era computation. -/
def daysFromCivil (y m d : ℤ) : ℤ :=
  let y' := if m ≤ 2 then y - 1 else y
  let era := Int.fdiv y' 400
  let yoe := y' - era * 400
  let mp := Int.emod (m + 9) 12
  let doy := (153 * mp + 2) / 5 + d - 1
  let doe := yoe * 365 + yoe / 4 - yoe / 100 + doy
  era * 146097 + doe - 719468

/-- Civil date `(y, m, d)` (with `m ∈ 1..12`) of a day count since
1970-01-01; inverse of `daysFromCivil`. -/
def civilFromDays (z0 : ℤ) : ℤ × ℤ × ℤ :=
  let z := z0 + 719468
  let era := Int.fdiv z 146097
  let doe := z - era * 146097
  let yoe := (doe - doe / 1460 + doe / 36524 - doe / 146096) / 365
  let y := yoe + era * 400
  let doy := doe - (365 * yoe + yoe / 4 - yoe / 100)
  let mp := (5 * doy + 2) / 153
  let d := doy - (153 * mp + 2) / 5 + 1
  let m := mp + (if mp < 10 then 3 else -9)
  (if m ≤ 2 then y + 1 else y, m, d)

/-- Source `new Date(year, monthIndex, day)` for arbitrary integer arguments,
normalized to a civil `(y, m, d)` triple (`m ∈ 1..12`), exactly as JS
rolls over month and day overflow. -/
def jsMakeDate (y m0 d : ℤ) : ℤ × ℤ × ℤ :=
  let t := y * 12 + m0
  let yy := Int.fdiv t 12
  let mm := Int.emod t 12
  civilFromDays (daysFromCivil yy (mm + 1) 1 + (d - 1))

/-- Source `new Date(year, month, 0).getDate()` where `month` is passed a human
month number: the number of days of human month `month` of `year`
(the source's `daysInMonth`), for arbitrary integers via JS rollover. -/
def jsMonthEndDay (y m : ℤ) : ℤ :=
  let t := y * 12 + m
  let yy := Int.fdiv t 12
  let mm := Int.emod t 12
  let t' := t - 1
  let yy' := Int.fdiv t' 12
  let mm' := Int.emod t' 12
  daysFromCivil yy (mm + 1) 1 - daysFromCivil yy' (mm' + 1) 1

/-! ## The composite `DateKnobbler` (third component of `knobbler.tsx`) -/

/-- Construction props of `DateKnobbler`; the `min`/`max` `Date` props are
stored as civil triples (defaults `new Date(2000, 0, 1)` and
`new Date(2030, 11, 31)`). -/
structure DateCfg where
  minY : ℤ := 2000
  minM : ℤ := 1
  minD : ℤ := 1
  maxY : ℤ := 2030
  maxM : ℤ := 12
  maxD : ℤ := 31
  startAngle : ℚ := -90
  arcLength : ℚ := 360
  diameter : ℚ := 200

def dkCenter (c : DateCfg) : ℚ := c.diameter / 2

/-- Source `effectiveR = radius - padding` with `padding = 4`. -/
def dkEffR (c : DateCfg) : ℚ := c.diameter / 2 - 4

/-- Source `bandWidth = effectiveR / 3`. -/
def dkBandWidth (c : DateCfg) : ℚ := dkEffR c / 3

/-- Source `getMonthBounds` (lines 503-506): `(low, high)` of the month for a
given year. -/
def dkMonthBounds (c : DateCfg) (year : ℤ) : ℤ × ℤ :=
  (if year = c.minY then c.minM else 1, if year = c.maxY then c.maxM else 12)

/-- Source `getDayBounds` (lines 507-512): `(low, high)` of the day for a given
year and month. -/
def dkDayBounds (c : DateCfg) (year month : ℤ) : ℤ × ℤ :=
  let daysInMonth := jsMonthEndDay year month
  (if year = c.minY ∧ month = c.minM then c.minD else 1,
   if year = c.maxY ∧ month = c.maxM then c.maxD else daysInMonth)

/-- Source `inRange` (line 498): clamp a date between the `min` and `max` props;
JS `Date` comparison is comparison of time values, i.e. of day counts for
normalized civil triples. -/
def dkInRange (c : DateCfg) (d : ℤ × ℤ × ℤ) : ℤ × ℤ × ℤ :=
  if daysFromCivil d.1 d.2.1 d.2.2 < daysFromCivil c.minY c.minM c.minD then
    (c.minY, c.minM, c.minD)
  else if daysFromCivil c.maxY c.maxM c.maxD < daysFromCivil d.1 d.2.1 d.2.2 then
    (c.maxY, c.maxM, c.maxD)
  else d

/-- Source `dist = Math.min(Math.hypot(dx, dy), effectiveR)` (line 589). -/
noncomputable def dkDistAt (c : DateCfg) (x y : ℝ) : ℝ :=
  min (jsHypot (x - (dkCenter c : ℝ)) (y - (dkCenter c : ℝ))) (dkEffR c : ℝ)

/-- Source `newBand = Math.min(2, Math.floor(dist / bandWidth))` (line 590). -/
noncomputable def dkNewBand (c : DateCfg) (x y : ℝ) : ℤ :=
  min 2 ⌊dkDistAt c x y / (dkBandWidth c : ℝ)⌋

/-- Source `rel` of the move handler (lines 593-596):
normalized pointer angle, relative sweep, `rel = Math.min(rel, arcLength)`. -/
noncomputable def dkRel (c : DateCfg) (x y : ℝ) : ℝ :=
  min (jsMod (jsAngleDeg (x - (dkCenter c : ℝ)) (y - (dkCenter c : ℝ))
      - (c.startAngle : ℝ) + 360) 360) (c.arcLength : ℝ)

/-- Source `selY = Math.round(minYear + (rel / arcLength) * (maxYear - minYear))`
(lines 598-599). -/
noncomputable def dkSelY (c : DateCfg) (x y : ℝ) : ℤ :=
  jround ((c.minY : ℝ) + dkRel c x y / (c.arcLength : ℝ) * ((c.maxY : ℝ) - (c.minY : ℝ)))

/-- Source `selM` (lines 600-602): month resolved against the bounds recomputed
from this sample's `selY`. -/
noncomputable def dkSelM (c : DateCfg) (x y : ℝ) : ℤ :=
  let mb := dkMonthBounds c (dkSelY c x y)
  jround ((mb.1 : ℝ) + dkRel c x y / (c.arcLength : ℝ) * ((mb.2 : ℝ) - (mb.1 : ℝ)))

/-- Source `selD` (lines 603-605): day resolved against the bounds recomputed from
this sample's `selY` and `selM`. -/
noncomputable def dkSelD (c : DateCfg) (x y : ℝ) : ℤ :=
  let db := dkDayBounds c (dkSelY c x y) (dkSelM c x y)
  jround ((db.1 : ℝ) + dkRel c x y / (c.arcLength : ℝ) * ((db.2 : ℝ) - (db.1 : ℝ)))

/-- The mutable working state of a `DateKnobbler` drag session:
`yearRef`, `monthRef`, `dayRef` and the active band `bandRef`. -/
structure DKState where
  yearRef : ℤ
  monthRef : ℤ
  dayRef : ℤ
  bandRef : Option ℤ
deriving DecidableEq, Repr

/-- The `switch (band) { case 0: yearRef.current = selY; ... }` write of one
band's resolved value into the working refs (used by both branches of the
move handler). -/
noncomputable def dkWrite (c : DateCfg) (x y : ℝ) (b : ℤ) (s : DKState) : DKState :=
  { s with
    yearRef := if b = 0 then dkSelY c x y else s.yearRef
    monthRef := if b = 1 then dkSelM c x y else s.monthRef
    dayRef := if b = 2 then dkSelD c x y else s.dayRef }

/-- The date emitted by the move handler:
`inRange(new Date(yearRef.current, monthRef.current - 1, dayRef.current))`. -/
def dkEmit (c : DateCfg) (s : DKState) : ℤ × ℤ × ℤ :=
  dkInRange c (jsMakeDate s.yearRef (s.monthRef - 1) s.dayRef)

/-- The `onMove` handler of `DateKnobbler.handlePointerDown` (lines 580-629):
returns the working state after the sample together with the emitted date.
If the pointer is in a different band than `bandRef` (and `bandRef` is not
`null`), the just-left band's value (resolved from THIS sample) is
committed, the band switches, and the handler emits and returns early —
without writing the new band's resolved value.  Otherwise the active band's
resolved value is written and emitted. -/
noncomputable def dkOnMove (c : DateCfg) (s : DKState) (x y : ℝ) :
    DKState × (ℤ × ℤ × ℤ) :=
  match s.bandRef with
  | some b =>
    if b ≠ dkNewBand c x y then
      ({ dkWrite c x y b s with bandRef := some (dkNewBand c x y) },
       dkEmit c { dkWrite c x y b s with bandRef := some (dkNewBand c x y) })
    else
      ({ dkWrite c x y (dkNewBand c x y) s with bandRef := some (dkNewBand c x y) },
       dkEmit c { dkWrite c x y (dkNewBand c x y) s with bandRef := some (dkNewBand c x y) })
  | none =>
    ({ dkWrite c x y (dkNewBand c x y) s with bandRef := some (dkNewBand c x y) },
     dkEmit c { dkWrite c x y (dkNewBand c x y) s with bandRef := some (dkNewBand c x y) })

/-! ## Spec-side definitions, for refinement comparison -/

/-- Following the spec's words for the rounding precision: the "max over
ALL configured step sizes (tickStep, precisionStep, and every entry of
precisionSteps) of the number of fractional digits". -/
def specDecimalsAllSteps (c : KnobCfg) : ℕ :=
  stepsDecimals (c.tickStep :: c.precisionStep :: c.precisionSteps.getD [])

/-! ## Concrete configurations used in counterexamples and witnesses -/

/-- A `Knobbler` configuration with `max = 10`, `tickStep = 4` and a half-circle arc; all
other props default. -/
def cfgNoClamp : KnobCfg := { max := 10, tickStep := 4, arcLength := 180 }

/-- A `Knobbler` configuration with `tickStep = 0.25` and `precisionStep = 0.5`; all other
props default. -/
def cfgQuarterTick : KnobCfg := { max := 10, tickStep := 1 / 4, precisionStep := 1 / 2 }

/-- A `Knobbler` configuration with the degenerate range `min = max = 5` and `tickStep = 2`
on a half-circle arc. -/
def cfgConstRange : KnobCfg := { min := 5, max := 5, tickStep := 2, arcLength := 180 }

/-- A `Knobbler` configuration with the degenerate range `min = max = 4` and `tickStep = 2`
(the step divides `min`). -/
def cfgConstRange4 : KnobCfg := { min := 4, max := 4, tickStep := 2, arcLength := 180 }

/-! ## Helper lemmas -/

theorem effSteps_ne_nil (ps : Option (List ℚ)) (p : ℚ) : effSteps ps p ≠ [] := by
  unfold effSteps
  cases ps with
  | none => simp
  | some l =>
    by_cases h : l.isEmpty
    · simp [h]
    · simpa [h] using (by simpa [List.isEmpty_iff] using h)

theorem kBands_pos (c : KnobCfg) : 1 ≤ kBands c := by
  have := effSteps_ne_nil c.precisionSteps c.precisionStep
  have : 0 < (kSteps c).length := List.length_pos.mpr this
  unfold kBands
  omega

theorem toFixed_mono {d : ℕ} {x y : ℝ} (h : x ≤ y) : toFixed d x ≤ toFixed d y := by
  unfold toFixed jround
  gcongr

theorem toFixed_intMul {d : ℕ} {x : ℝ} (m : ℤ) (hm : x * 10 ^ d = m) :
    toFixed d x = x := by
  have h10 : (0:ℝ) < 10 ^ d := by positivity
  unfold toFixed jround
  rw [hm, add_comm, Int.floor_add_int]
  rw [show ⌊(1/2 : ℝ)⌋ = 0 by norm_num]
  field_simp
  linarith [hm]

theorem toFixed_fix {d : ℕ} {x : ℝ} (h : ∃ m : ℤ, x * 10 ^ d = (m : ℝ)) :
    toFixed d x = x := by
  obtain ⟨m, hm⟩ := h
  exact toFixed_intMul m hm

theorem jround_intCast (k : ℤ) : jround ((k : ℝ)) = k := by
  unfold jround
  rw [add_comm, Int.floor_add_int]
  norm_num

theorem jsHypot_vert {a : ℝ} (h : 0 ≤ a) : jsHypot 0 a = a := by
  unfold jsHypot
  rw [show (0:ℝ) * 0 + a * a = a * a by ring]
  exact Real.sqrt_mul_self h

theorem jsHypot_horiz {a : ℝ} (h : 0 ≤ a) : jsHypot a 0 = a := by
  unfold jsHypot
  rw [show a * a + (0:ℝ) * 0 = a * a by ring]
  exact Real.sqrt_mul_self h

theorem jsHypot_diag {a : ℝ} (h : 0 ≤ a) : jsHypot a a = a * Real.sqrt 2 := by
  unfold jsHypot
  rw [show a * a + a * a = (a * Real.sqrt 2) ^ 2 by
    rw [mul_pow, Real.sq_sqrt (by norm_num : (0:ℝ) ≤ 2)]; ring]
  exact Real.sqrt_sq (by positivity)

theorem jsAngleDeg_down {a : ℝ} (h : 0 < a) : jsAngleDeg 0 a = 90 := by
  unfold jsAngleDeg jsAtan2
  rw [if_neg (lt_irrefl 0), if_neg (lt_irrefl 0), if_pos h]
  have hp : Real.pi / 2 * 180 / Real.pi = 90 := by
    field_simp
    ring
  rw [hp, if_neg (by norm_num)]

theorem jsAngleDeg_right {a : ℝ} (h : 0 < a) : jsAngleDeg a 0 = 0 := by
  unfold jsAngleDeg jsAtan2
  rw [if_pos h]
  rw [show (0:ℝ) / a = 0 by ring, Real.arctan_zero]
  rw [show (0:ℝ) * 180 / Real.pi = 0 by ring]
  rw [if_neg (lt_irrefl 0)]

theorem jsAngleDeg_diag {a : ℝ} (h : 0 < a) : jsAngleDeg a a = 45 := by
  unfold jsAngleDeg jsAtan2
  rw [if_pos h]
  rw [show a / a = 1 by field_simp, Real.arctan_one]
  have hp : Real.pi / 4 * 180 / Real.pi = 45 := by
    field_simp
    ring
  rw [hp, if_neg (by norm_num)]

theorem jsMod_eval {a b : ℝ} (k : ℤ) (hb : 0 < b) (hk : 0 ≤ (k : ℝ))
    (h1 : (k : ℝ) * b ≤ a) (h2 : a < ((k : ℝ) + 1) * b) :
    jsMod a b = a - b * k := by
  unfold jsMod jsTrunc
  have hle : (0 : ℝ) ≤ a / b := by
    apply div_nonneg ?_ (le_of_lt hb)
    nlinarith
  rw [if_pos hle]
  have hfl : ⌊a / b⌋ = k := by
    refine Int.floor_eq_iff.mpr ⟨?_, ?_⟩
    · rw [le_div_iff₀ hb]
      linarith
    · rw [div_lt_iff₀ hb]
      linarith
  rw [hfl]

/-- Relative-sweep evaluation for `Knobbler.valueFromPoint`: when the shifted
angle falls in turn `k` of the JS modulus and the result does not exceed the
arc length, `kRel` is the plain difference. -/
theorem kRel_eval (c : KnobCfg) (ang : ℝ) (k : ℤ) (hk : 0 ≤ (k : ℝ))
    (h1 : (k : ℝ) * 360 ≤ ang - (c.startAngle : ℝ) + 360)
    (h2 : ang - (c.startAngle : ℝ) + 360 < ((k : ℝ) + 1) * 360)
    (hle : ang - (c.startAngle : ℝ) + 360 - 360 * k ≤ (c.arcLength : ℝ)) :
    kRel c ang = ang - (c.startAngle : ℝ) + 360 - 360 * k := by
  unfold kRel
  rw [jsMod_eval k (by norm_num) hk h1 h2]
  rw [if_neg (not_lt.mpr hle)]

/-- Binary step selection: with `precisionSteps` omitted and the distance
within `precisionDistance`, the selected step is `tickStep`. -/
theorem kStepAt_tick (c : KnobCfg) (dist : ℝ) (hps : c.precisionSteps = none)
    (hle : dist ≤ (c.precisionDistance : ℝ)) : kStepAt c dist = c.tickStep := by
  unfold kStepAt
  rw [hps]
  simp only [psActive, Bool.false_eq_true, if_false]
  rw [if_neg (not_lt.mpr hle)]

/-- Geometry of the pointer `(75, 95)` on a 150px `Knobbler`: straight below
the center `(75, 75)`, distance 20, angle 90°. -/
theorem kGeom_7595 {c : KnobCfg} (hdia : c.diameter = 150) :
    kDistAt c 75 95 = 20 ∧ kAngAt c 75 95 = 90 := by
  have hc : (kCenter c : ℝ) = 75 := by
    rw [kCenter, hdia]
    norm_num
  constructor
  · unfold kDistAt
    rw [hc, show (75:ℝ) - 75 = 0 by norm_num, show (95:ℝ) - 75 = 20 by norm_num]
    exact jsHypot_vert (by norm_num)
  · unfold kAngAt
    rw [hc, show (75:ℝ) - 75 = 0 by norm_num, show (95:ℝ) - 75 = 20 by norm_num]
    exact jsAngleDeg_down (by norm_num)

/-- Geometry of the pointer `(95, 95)` on a 150px `Knobbler`: on the
down-right diagonal, distance `20√2 ≈ 28.3`, angle 45°. -/
theorem kGeom_9595 {c : KnobCfg} (hdia : c.diameter = 150) :
    kDistAt c 95 95 = 20 * Real.sqrt 2 ∧ kAngAt c 95 95 = 45 := by
  have hc : (kCenter c : ℝ) = 75 := by
    rw [kCenter, hdia]
    norm_num
  constructor
  · unfold kDistAt
    rw [hc, show (95:ℝ) - 75 = 20 by norm_num]
    exact jsHypot_diag (by norm_num)
  · unfold kAngAt
    rw [hc, show (95:ℝ) - 75 = 20 by norm_num]
    exact jsAngleDeg_diag (by norm_num)

/-- Derived `decimals = 1` for any configuration with the default
`precisionStep = 0.1` and no `precisionSteps`. -/
theorem kDecimals_default {c : KnobCfg} (hps : c.precisionSteps = none)
    (hp : c.precisionStep = 1 / 10) : kDecimals c = 1 := by
  unfold kDecimals kSteps stepsDecimals fracDigits
  rw [hps, hp]
  simp only [effSteps, List.map, List.foldr]
  rw [show ((1:ℚ)/10).den = 10 by norm_num]
  decide

/-- Geometry of the pointer `(170, 100)` on the default 200px
`DateKnobbler`: straight right of the center `(100, 100)`, distance 70
(inside the 96px surface), angle 0°, relative sweep 90°, band 2. -/
theorem dkGeom_170100 :
    dkDistAt ({} : DateCfg) 170 100 = 70 ∧ dkNewBand ({} : DateCfg) 170 100 = 2 ∧
      dkRel ({} : DateCfg) 170 100 = 90 := by
  have hc : (dkCenter ({} : DateCfg) : ℝ) = 100 := by
    rw [dkCenter]
    norm_num
  have hdx : (170 : ℝ) - (dkCenter ({} : DateCfg) : ℝ) = 70 := by rw [hc]; norm_num
  have hdy : (100 : ℝ) - (dkCenter ({} : DateCfg) : ℝ) = 0 := by rw [hc]; norm_num
  have hdist : dkDistAt ({} : DateCfg) 170 100 = 70 := by
    unfold dkDistAt
    rw [hdx, hdy, jsHypot_horiz (by norm_num : (0:ℝ) ≤ 70),
      show ((dkEffR ({} : DateCfg) : ℚ) : ℝ) = 96 by rw [dkEffR]; norm_num]
    norm_num
  refine ⟨hdist, ?_, ?_⟩
  · unfold dkNewBand
    rw [hdist, show ((dkBandWidth ({} : DateCfg) : ℚ) : ℝ) = 32 by rw [dkBandWidth, dkEffR]; norm_num,
      show (70 : ℝ) / 32 = 35 / 16 by norm_num, show ⌊(35/16 : ℝ)⌋ = 2 by norm_num]
    norm_num
  · unfold dkRel
    rw [hdx, hdy, jsAngleDeg_right (by norm_num : (0:ℝ) < 70)]
    rw [show (0 : ℝ) - (({} : DateCfg).startAngle : ℝ) + 360 = 450 by
      rw [show ({} : DateCfg).startAngle = -90 from rfl]; push_cast; norm_num]
    rw [jsMod_eval 1 (by norm_num) (by norm_num) (by norm_num) (by norm_num)]
    rw [show ((({} : DateCfg).arcLength : ℚ) : ℝ) = 360 by
      rw [show ({} : DateCfg).arcLength = 360 from rfl]; norm_num]
    norm_num

/-- The three per-band resolved values at the pointer `(170, 100)` of the
default `DateKnobbler`: year 2008, month 4, day 8. -/
theorem dkSels_170100 :
    dkSelY ({} : DateCfg) 170 100 = 2008 ∧ dkSelM ({} : DateCfg) 170 100 = 4 ∧
      dkSelD ({} : DateCfg) 170 100 = 8 := by
  obtain ⟨-, -, hrel⟩ := dkGeom_170100
  have harc : ((({} : DateCfg).arcLength : ℚ) : ℝ) = 360 := by
    rw [show ({} : DateCfg).arcLength = 360 from rfl]
    norm_num
  have hselY : dkSelY ({} : DateCfg) 170 100 = 2008 := by
    unfold dkSelY
    rw [hrel, harc, show (({} : DateCfg).minY : ℝ) = 2000 by norm_num,
      show (({} : DateCfg).maxY : ℝ) = 2030 by norm_num]
    rw [show (2000 : ℝ) + 90 / 360 * (2030 - 2000) = 4015/2 by norm_num]
    unfold jround
    norm_num
  have hselM : dkSelM ({} : DateCfg) 170 100 = 4 := by
    unfold dkSelM
    rw [hselY, show dkMonthBounds ({} : DateCfg) 2008 = (1, 12) from by decide]
    dsimp only
    rw [hrel, harc]
    unfold jround
    push_cast
    norm_num
  refine ⟨hselY, hselM, ?_⟩
  unfold dkSelD
  rw [hselY, hselM, show dkDayBounds ({} : DateCfg) 2008 4 = (1, 30) from by decide]
  dsimp only
  rw [hrel, harc]
  unfold jround
  push_cast
  norm_num

/-! ## Claim theorems -/

/-- C1 (amended, positive half): the radial `MediKnobbler` of
`medi-knobbler.tsx` clamps before returning: for every pointer position, if
`min ≤ max`, the previous value is in range, and `min` and `max` are exactly
representable at the computed decimal precision (all step sizes positive, as
the claim assumes), then `range.min ≤ valueFromPoint ≤ range.max`. -/
theorem medi_valueFromPoint_clamped (c : MediCfg) (x y prev : ℝ)
    (hrange : (c.min : ℝ) ≤ (c.max : ℝ))
    (hprev₁ : (c.min : ℝ) ≤ prev) (hprev₂ : prev ≤ (c.max : ℝ))
    (hdmin : ∃ m : ℤ, (c.min : ℝ) * 10 ^ mediDecimals c = (m : ℝ))
    (hdmax : ∃ m : ℤ, (c.max : ℝ) * 10 ^ mediDecimals c = (m : ℝ))
    (_htick : 0 < c.tickStep) (_hsteps : ∀ s ∈ mediSteps c, 0 < s) :
    (c.min : ℝ) ≤ mediValueFromPoint c x y prev ∧
      mediValueFromPoint c x y prev ≤ (c.max : ℝ) := by
  unfold mediValueFromPoint
  split
  · exact ⟨hprev₁, hprev₂⟩
  · set s := mediSnapped c (mediDistAt c x y) (mediAngAt c x y) with hs
    have h1 : (c.min : ℝ) ≤ min (c.max : ℝ) (max (c.min : ℝ) s) :=
      le_min hrange (le_max_left _ _)
    have h2 : min (c.max : ℝ) (max (c.min : ℝ) s) ≤ (c.max : ℝ) := min_le_left _ _
    constructor
    · calc (c.min : ℝ) = toFixed (mediDecimals c) (c.min : ℝ) :=
            (toFixed_fix hdmin).symm
        _ ≤ _ := toFixed_mono h1
    · calc toFixed (mediDecimals c) (min (c.max : ℝ) (max (c.min : ℝ) s))
            ≤ toFixed (mediDecimals c) (c.max : ℝ) := toFixed_mono h2
        _ = (c.max : ℝ) := toFixed_fix hdmax

/-- Witness for `medi_valueFromPoint_clamped` at the default configuration
(`min = 0`, `max = 12`, steps `1` and `0.1`), pointer `(10, 20)`, previous
value `6`. -/
theorem medi_valueFromPoint_clamped_witness :
    (((({ orientation := .top } : MediCfg)).min : ℝ) ≤
        mediValueFromPoint { orientation := .top } 10 20 6 ∧
      mediValueFromPoint { orientation := .top } 10 20 6 ≤
        ((({ orientation := .top } : MediCfg)).max : ℝ)) :=
  medi_valueFromPoint_clamped { orientation := .top } 10 20 6
    (by norm_num) (by norm_num) (by norm_num)
    ⟨0, by norm_num⟩
    ⟨12 * 10 ^ mediDecimals { orientation := .top }, by push_cast; norm_num⟩
    (by norm_num) (by simp [mediSteps, effSteps])

/-- C1 (counterexample): the radial `Knobbler` omits the clamp.  With
`min = 0`, `max = 10`, `tickStep = 4`, a half-circle arc from `-90°` and
otherwise default props, the pointer `(75, 95)` (distance 20, angle 90°,
raw value 10) snaps to `round(10/4) * 4 = 12`, and `valueFromPoint` returns
`12 > max`. -/
theorem knobbler_not_clamped :
    kValueFromPoint cfgNoClamp 75 95 5 = 12 ∧
      ¬ kValueFromPoint cfgNoClamp 75 95 5 ≤ (cfgNoClamp.max : ℝ) := by
  obtain ⟨hdist, hang⟩ := kGeom_7595 (c := cfgNoClamp) rfl
  have hs : cfgNoClamp.startAngle = -90 := rfl
  have ha : cfgNoClamp.arcLength = 180 := rfl
  have hrel : kRel cfgNoClamp 90 = 180 := by
    rw [kRel_eval cfgNoClamp 90 1 (by norm_num)
      (by rw [hs]; push_cast; norm_num)
      (by rw [hs]; push_cast; norm_num)
      (by rw [hs, ha]; push_cast; norm_num)]
    rw [hs]
    push_cast
    norm_num
  have hraw : kRaw cfgNoClamp 90 = 10 := by
    unfold kRaw
    rw [hrel, show cfgNoClamp.min = 0 from rfl, show cfgNoClamp.max = 10 from rfl, ha]
    push_cast
    norm_num
  have hstep : kStepAt cfgNoClamp 20 = 4 := by
    rw [kStepAt_tick cfgNoClamp 20 rfl
      (by rw [show cfgNoClamp.precisionDistance = 30 from rfl]; push_cast; norm_num)]
    rfl
  have hsnap : kSnapped cfgNoClamp 20 90 = 12 := by
    unfold kSnapped
    rw [hraw, hstep, show ((4:ℚ):ℝ) = 4 by norm_num,
      show jround ((10:ℝ)/4) = 3 by unfold jround; norm_num]
    norm_num
  have hval : kValueFromPoint cfgNoClamp 75 95 5 = 12 := by
    unfold kValueFromPoint
    rw [hdist, hang,
      if_neg (by rw [show cfgNoClamp.deadzone = 15 from rfl]; push_cast; norm_num),
      hsnap, kDecimals_default (c := cfgNoClamp) rfl rfl]
    unfold toFixed jround
    norm_num
  refine ⟨hval, ?_⟩
  rw [hval, show cfgNoClamp.max = 10 from rfl]
  push_cast
  norm_num

/-- C2 (code bug): the half-circle `MediKnobbler` of `knobbler.tsx`
documents `deadzone` as the "radius in px where drag won't change value",
but its `valueFromPoint` performs no deadzone check at all: with the default
configuration and previous value `3`, the pointer exactly at the container
center (axis and Euclidean distance `0 < deadzone = 15`) resolves to `6`,
not the previous value. -/
theorem mediK_deadzone_not_frozen :
    mkDist { orientation := .top } 75 75 <
        (({ orientation := .top } : MediKCfg)).deadzone ∧
      mkValueFromPoint { orientation := .top } 75 75 3 = some 6 ∧
      some (6 : ℚ) ≠ some (3 : ℚ) := by
  have hdec : mkDecimals { orientation := .top } = 1 := by
    have hden : ((1 : ℚ) / 10).den = 10 := by norm_num
    unfold mkDecimals mkSteps stepsDecimals fracDigits
    simp only [effSteps, List.map, List.foldr]
    rw [hden]
    decide
  refine ⟨by norm_num [mkDist, mkCenter], ?_, by simp⟩
  norm_num [mkValueFromPoint, mkFraction, mkDist, mkCenter, mkStepAt, psActive,
    hdec, toFixed, jround]

/-- C7 (counterexample): with the degenerate range `min = max = 5`,
`tickStep = 2` and a half-circle arc, the pointer `(75, 95)` (distance 20,
outside the deadzone) resolves `raw = 5` but snaps to `round(5/2) * 2 = 6`:
`Knobbler.valueFromPoint` does not return `range.min`. -/
theorem knobbler_const_range_returns_snapped :
    cfgConstRange.max = cfgConstRange.min ∧
      kValueFromPoint cfgConstRange 75 95 5 = 6 ∧
      (6 : ℝ) ≠ (cfgConstRange.min : ℝ) := by
  obtain ⟨hdist, hang⟩ := kGeom_7595 (c := cfgConstRange) rfl
  have hraw : kRaw cfgConstRange 90 = 5 := by
    unfold kRaw
    rw [show cfgConstRange.min = 5 from rfl, show cfgConstRange.max = 5 from rfl]
    push_cast
    rw [sub_self, mul_zero, add_zero]
  have hstep : kStepAt cfgConstRange 20 = 2 := by
    rw [kStepAt_tick cfgConstRange 20 rfl
      (by rw [show cfgConstRange.precisionDistance = 30 from rfl]; push_cast; norm_num)]
    rfl
  have hsnap : kSnapped cfgConstRange 20 90 = 6 := by
    unfold kSnapped
    rw [hraw, hstep, show ((2:ℚ):ℝ) = 2 by norm_num,
      show jround ((5:ℝ)/2) = 3 by unfold jround; norm_num]
    norm_num
  have hval : kValueFromPoint cfgConstRange 75 95 5 = 6 := by
    unfold kValueFromPoint
    rw [hdist, hang,
      if_neg (by rw [show cfgConstRange.deadzone = 15 from rfl]; push_cast; norm_num),
      hsnap, kDecimals_default (c := cfgConstRange) rfl rfl]
    unfold toFixed jround
    norm_num
  exact ⟨rfl, hval, by rw [show cfgConstRange.min = 5 from rfl]; push_cast; norm_num⟩

/-- C7 (amended): with a degenerate range `max = min`, `valueFromPoint`
never divides by the zero range width (`max - min` is only multiplied in),
and the result for any pointer at or beyond the deadzone is the snapped
`min`, which equals `min` itself whenever `min` is an integer multiple of
the selected step and representable at the fixed precision. -/
theorem knobbler_const_range_snap (c : KnobCfg) (x y prev : ℝ)
    (hconst : c.max = c.min)
    (hd : (c.deadzone : ℝ) ≤ kDistAt c x y)
    (hstep0 : (kStepAt c (kDistAt c x y) : ℝ) ≠ 0)
    (hmul : ∃ k : ℤ, (c.min : ℝ) = (k : ℝ) * (kStepAt c (kDistAt c x y) : ℝ))
    (hfix : ∃ m : ℤ, (c.min : ℝ) * 10 ^ kDecimals c = (m : ℝ)) :
    kValueFromPoint c x y prev = (c.min : ℝ) := by
  have hraw : kRaw c (kAngAt c x y) = (c.min : ℝ) := by
    unfold kRaw
    rw [hconst, sub_self, mul_zero, add_zero]
  obtain ⟨k, hk⟩ := hmul
  have hsnap : kSnapped c (kDistAt c x y) (kAngAt c x y) = (c.min : ℝ) := by
    unfold kSnapped
    rw [hraw, hk, mul_div_assoc, div_self hstep0, mul_one, jround_intCast]
  unfold kValueFromPoint
  rw [if_neg (not_lt.mpr hd), hsnap, toFixed_fix hfix]

/-- Witness for `knobbler_const_range_snap`: `min = max = 4`, `tickStep = 2`,
pointer `(75, 95)` at distance 20. -/
theorem knobbler_const_range_snap_witness :
    kValueFromPoint cfgConstRange4 75 95 0 = (cfgConstRange4.min : ℝ) := by
  have hd20 : kDistAt cfgConstRange4 75 95 = 20 := (kGeom_7595 rfl).1
  have hstep : kStepAt cfgConstRange4 (kDistAt cfgConstRange4 75 95) = 2 := by
    rw [hd20, kStepAt_tick cfgConstRange4 20 rfl
      (by rw [show cfgConstRange4.precisionDistance = 30 from rfl]; push_cast; norm_num)]
    rfl
  exact knobbler_const_range_snap cfgConstRange4 75 95 0 rfl
    (by rw [hd20, show cfgConstRange4.deadzone = 15 from rfl]; push_cast; norm_num)
    (by rw [hstep]; push_cast; norm_num)
    ⟨2, by rw [hstep, show cfgConstRange4.min = 4 from rfl]; push_cast; norm_num⟩
    ⟨4 * 10 ^ kDecimals cfgConstRange4,
      by rw [show cfgConstRange4.min = 4 from rfl]; push_cast; ring⟩

/-- C4 (counterexample): with `tickStep = 0.25` and `precisionStep = 0.5`
(no `precisionSteps`), the code's rounding precision is 1 digit (computed
from `precisionStep` alone) while the claimed formula over ALL configured
steps gives 2; at the pointer `(95, 95)` (distance `20√2 ≤ 30`, so
`tickStep` is selected) the raw value 3.75 snaps to 3.75 but is rounded to
3.8, which is an integer multiple of neither configured step. -/
theorem knobbler_decimals_divergence :
    kDecimals cfgQuarterTick = 1 ∧ specDecimalsAllSteps cfgQuarterTick = 2 ∧
      kValueFromPoint cfgQuarterTick 95 95 0 = 19 / 5 ∧
      (¬ ∃ k : ℤ, (19 / 5 : ℝ) = (k : ℝ) * (cfgQuarterTick.tickStep : ℝ)) ∧
      (¬ ∃ k : ℤ, (19 / 5 : ℝ) = (k : ℝ) * (cfgQuarterTick.precisionStep : ℝ)) := by
  have h2 : Real.sqrt 2 ^ 2 = 2 := Real.sq_sqrt (by norm_num)
  have h2n : 0 ≤ Real.sqrt 2 := Real.sqrt_nonneg 2
  have hlb : 1 ≤ Real.sqrt 2 := by nlinarith
  have hub : Real.sqrt 2 ≤ 3 / 2 := by nlinarith
  obtain ⟨hdist, hang⟩ := kGeom_9595 (c := cfgQuarterTick) rfl
  have hdec : kDecimals cfgQuarterTick = 1 := by
    unfold kDecimals kSteps stepsDecimals fracDigits
    rw [show cfgQuarterTick.precisionSteps = none from rfl,
      show cfgQuarterTick.precisionStep = 1 / 2 from rfl]
    simp only [effSteps, List.map, List.foldr]
    rw [show ((1:ℚ)/2).den = 2 by norm_num]
    decide
  have hspec : specDecimalsAllSteps cfgQuarterTick = 2 := by
    unfold specDecimalsAllSteps stepsDecimals fracDigits
    rw [show cfgQuarterTick.precisionSteps = none from rfl,
      show cfgQuarterTick.tickStep = 1 / 4 from rfl,
      show cfgQuarterTick.precisionStep = 1 / 2 from rfl]
    simp only [Option.getD, List.map, List.foldr]
    rw [show ((1:ℚ)/4).den = 4 by norm_num, show ((1:ℚ)/2).den = 2 by norm_num]
    decide
  have hrel : kRel cfgQuarterTick 45 = 135 := by
    rw [kRel_eval cfgQuarterTick 45 1 (by norm_num)
      (by rw [show cfgQuarterTick.startAngle = -90 from rfl]; push_cast; norm_num)
      (by rw [show cfgQuarterTick.startAngle = -90 from rfl]; push_cast; norm_num)
      (by rw [show cfgQuarterTick.startAngle = -90 from rfl,
          show cfgQuarterTick.arcLength = 360 from rfl]; push_cast; norm_num)]
    rw [show cfgQuarterTick.startAngle = -90 from rfl]
    push_cast
    norm_num
  have hraw : kRaw cfgQuarterTick 45 = 15 / 4 := by
    unfold kRaw
    rw [hrel, show cfgQuarterTick.min = 0 from rfl, show cfgQuarterTick.max = 10 from rfl,
      show cfgQuarterTick.arcLength = 360 from rfl]
    push_cast
    norm_num
  have hstep : kStepAt cfgQuarterTick (20 * Real.sqrt 2) = 1 / 4 := by
    rw [kStepAt_tick cfgQuarterTick (20 * Real.sqrt 2) rfl
      (by rw [show cfgQuarterTick.precisionDistance = 30 from rfl]; push_cast; nlinarith)]
    rfl
  have hsnap : kSnapped cfgQuarterTick (20 * Real.sqrt 2) 45 = 15 / 4 := by
    unfold kSnapped
    rw [hraw, hstep, show (((1:ℚ)/4:ℚ):ℝ) = 1/4 by norm_num,
      show jround ((15/4:ℝ) / (1/4)) = 15 by unfold jround; norm_num]
    norm_num
  have hval : kValueFromPoint cfgQuarterTick 95 95 0 = 19 / 5 := by
    unfold kValueFromPoint
    rw [hdist, hang,
      if_neg (by rw [show cfgQuarterTick.deadzone = 15 from rfl]; push_cast; nlinarith),
      hsnap, hdec]
    unfold toFixed jround
    norm_num
  refine ⟨hdec, hspec, hval, ?_, ?_⟩
  · rintro ⟨k, hk⟩
    rw [show cfgQuarterTick.tickStep = 1 / 4 from rfl] at hk
    push_cast at hk
    have h5 : ((5 * k : ℤ) : ℝ) = 76 := by push_cast; linarith
    have h5' : (5 * k : ℤ) = 76 := by exact_mod_cast h5
    omega
  · rintro ⟨k, hk⟩
    rw [show cfgQuarterTick.precisionStep = 1 / 2 from rfl] at hk
    push_cast at hk
    have h5 : ((5 * k : ℤ) : ℝ) = 38 := by push_cast; linarith
    have h5' : (5 * k : ℤ) = 38 := by exact_mod_cast h5
    omega

/-- C4 (amended): for every pointer at or beyond the deadzone, the
`Knobbler` output is `toFixed(decimals, round(raw/step) * step)` for the
selected configured step; whenever that step is exactly representable at
the code's `decimals` (which is the max fractional-digit count over
`precisionSteps` if nonempty, else of `precisionStep` alone — `tickStep`
never contributes), the output is exactly an integer multiple of the
selected step. -/
theorem knobbler_output_step_multiple (c : KnobCfg) (x y prev : ℝ)
    (hd : (c.deadzone : ℝ) ≤ kDistAt c x y)
    (hrep : ∃ m : ℤ, (kStepAt c (kDistAt c x y) : ℝ) * 10 ^ kDecimals c = (m : ℝ)) :
    ∃ k : ℤ, kValueFromPoint c x y prev =
      (k : ℝ) * (kStepAt c (kDistAt c x y) : ℝ) := by
  obtain ⟨m, hm⟩ := hrep
  refine ⟨jround (kRaw c (kAngAt c x y) / (kStepAt c (kDistAt c x y) : ℝ)), ?_⟩
  unfold kValueFromPoint
  rw [if_neg (not_lt.mpr hd)]
  unfold kSnapped
  rw [toFixed_fix ⟨jround (kRaw c (kAngAt c x y) / (kStepAt c (kDistAt c x y) : ℝ)) * m,
    by push_cast; rw [mul_assoc, hm]⟩]

/-- Witness for `knobbler_output_step_multiple` at the default
configuration, pointer `(75, 95)` at distance 20 (step `tickStep = 1`). -/
theorem knobbler_output_step_multiple_witness :
    ∃ k : ℤ, kValueFromPoint {} 75 95 0 =
      (k : ℝ) * (kStepAt {} (kDistAt {} 75 95) : ℝ) := by
  have hd20 : kDistAt ({} : KnobCfg) 75 95 = 20 := (kGeom_7595 rfl).1
  have hstep : kStepAt ({} : KnobCfg) (kDistAt {} 75 95) = 1 := by
    rw [hd20, kStepAt_tick {} 20 rfl
      (by norm_num [show ({} : KnobCfg).precisionDistance = 30 from rfl])]
  exact knobbler_output_step_multiple {} 75 95 0
    (by norm_num [hd20, show ({} : KnobCfg).deadzone = 15 from rfl])
    ⟨10 ^ kDecimals ({} : KnobCfg), by rw [hstep]; push_cast; ring⟩

/-- C3 (counterexample): band-switch sample of the default `DateKnobbler`.
Working state `(2015, 6, 15)` with active band 0 (year); the pointer moves
to `(170, 100)`, i.e. band 2 (day), where this sample resolves day 8.  The
handler switches to band 2 and commits the year, but the day ref keeps its
old value 15: the new band's resolved value is NOT written on the switch
sample. -/
theorem dk_switch_does_not_write_new_band :
    (dkOnMove {} ⟨2015, 6, 15, some 0⟩ 170 100).1.dayRef = 15 ∧
      dkSelD ({} : DateCfg) 170 100 = 8 ∧
      dkNewBand ({} : DateCfg) 170 100 = 2 ∧
      (dkOnMove {} ⟨2015, 6, 15, some 0⟩ 170 100).1.bandRef = some 2 ∧
      (15 : ℤ) ≠ 8 := by
  obtain ⟨-, hnb, -⟩ := dkGeom_170100
  obtain ⟨-, -, hselD⟩ := dkSels_170100
  have hne : (0 : ℤ) ≠ dkNewBand ({} : DateCfg) 170 100 := by
    rw [hnb]
    decide
  have hmove : (dkOnMove {} ⟨2015, 6, 15, some 0⟩ 170 100).1 =
      { dkWrite ({} : DateCfg) 170 100 0 ⟨2015, 6, 15, some 0⟩ with
        bandRef := some (dkNewBand ({} : DateCfg) 170 100) } := by
    unfold dkOnMove
    dsimp only
    rw [if_pos hne]
  refine ⟨?_, hselD, hnb, ?_, by decide⟩
  · rw [hmove]
    unfold dkWrite
    decide
  · rw [hmove, hnb]

/-- C3 (amended): on every move sample where the pointer's band differs
from the active band, the handler commits only the just-left band's value
(as resolved from the current sample), switches the active band index, and
emits the date assembled from the refs so updated; the new band's resolved
value is not written on that sample (the handler returns early), so the new
band's ref keeps its previous working value until the next sample. -/
theorem dk_band_switch_commits_only_old (c : DateCfg) (s : DKState) (x y : ℝ)
    (b : ℤ) (hb : s.bandRef = some b) (hne : b ≠ dkNewBand c x y) :
    (dkOnMove c s x y).1 =
      { yearRef := if b = 0 then dkSelY c x y else s.yearRef
        monthRef := if b = 1 then dkSelM c x y else s.monthRef
        dayRef := if b = 2 then dkSelD c x y else s.dayRef
        bandRef := some (dkNewBand c x y) } ∧
      (dkOnMove c s x y).2 = dkEmit c (dkOnMove c s x y).1 := by
  unfold dkOnMove
  rw [hb]
  dsimp only
  rw [if_pos hne]
  exact ⟨rfl, rfl⟩

/-- Witness for `dk_band_switch_commits_only_old`: default `DateKnobbler`,
state `(2015, 6, 15)` in band 0, pointer `(170, 100)` in band 2. -/
theorem dk_band_switch_commits_only_old_witness :
    (dkOnMove {} ⟨2015, 6, 15, some 0⟩ 170 100).1 =
      { yearRef := if (0 : ℤ) = 0 then dkSelY ({} : DateCfg) 170 100 else 2015
        monthRef := if (0 : ℤ) = 1 then dkSelM ({} : DateCfg) 170 100 else 6
        dayRef := if (0 : ℤ) = 2 then dkSelD ({} : DateCfg) 170 100 else 15
        bandRef := some (dkNewBand ({} : DateCfg) 170 100) } ∧
      (dkOnMove {} ⟨2015, 6, 15, some 0⟩ 170 100).2 =
        dkEmit {} (dkOnMove {} ⟨2015, 6, 15, some 0⟩ 170 100).1 :=
  dk_band_switch_commits_only_old {} ⟨2015, 6, 15, some 0⟩ 170 100 0 rfl
    (by rw [(dkGeom_170100).2.1]; decide)

/-- C9: in the composite date variant with the default overall range
`[2000-01-01, 2030-12-31]`, the recomputed day bounds for working year 2024
(a leap year) and working month 2 are `low = 1` and `high = 29`. -/
theorem dk_leap_year_day_bounds : dkDayBounds {} 2024 2 = (1, 29) := by
  decide

/-- C5 (counterexample): construction is not validated.  A configuration
with `precisionStep = 0` (a non-positive step) is accepted: the derived
step list is `[0]` and resolution would divide by that zero step during the
drag; an empty `precisionSteps` is likewise accepted, silently falling back
to `[precisionStep]`. -/
theorem construction_accepts_invalid_config :
    kSteps { precisionStep := 0 } = [0] ∧
      kBands { precisionStep := 0 } = 1 ∧
      kSteps { precisionSteps := some [] } = [1 / 10] :=
  ⟨by simp [kSteps, effSteps], by simp [kBands, kSteps, effSteps],
   by simp [kSteps, effSteps]⟩

/-- C5 (amended): no variant validates its configuration, but a zero-band
state is unreachable: the effective step list of every variant is never
empty, because an empty or missing `precisionSteps` falls back to
`[precisionStep]`. -/
theorem effective_steps_never_empty :
    (∀ c : KnobCfg, kSteps c ≠ []) ∧ (∀ c : MediKCfg, mkSteps c ≠ []) ∧
      (∀ c : MediCfg, mediSteps c ≠ []) :=
  ⟨fun c => effSteps_ne_nil c.precisionSteps c.precisionStep,
   fun c => effSteps_ne_nil c.precisionSteps c.precisionStep,
   fun c => effSteps_ne_nil c.precisionSteps c.precisionStep⟩

/-- C10: passing `precisionSteps = []` is accepted and behaves exactly like
omitting the prop: for every pointer position and previous value, both the
radial `Knobbler` and the radial `MediKnobbler` resolve the same value under
`precisionSteps := some []` as under `precisionSteps := none` (the empty
list falls back to the binary `tickStep`/`precisionStep` policy). -/
theorem empty_precisionSteps_same_as_none :
    (∀ (c : KnobCfg) (x y prev : ℝ),
      kValueFromPoint { c with precisionSteps := some [] } x y prev =
        kValueFromPoint { c with precisionSteps := none } x y prev) ∧
    (∀ (c : MediCfg) (x y prev : ℝ),
      mediValueFromPoint { c with precisionSteps := some [] } x y prev =
        mediValueFromPoint { c with precisionSteps := none } x y prev) := by
  constructor
  · intro c x y prev
    simp [kValueFromPoint, kDistAt, kAngAt, kSnapped, kRaw, kRel, kStepAt,
      kDecimals, kSteps, kBands, kBandWidth, kMaxRange, kInnerR, kCenter,
      effSteps, psActive]
  · intro c x y prev
    simp [mediValueFromPoint, mediDistAt, mediAngAt, mediSnapped, mediRaw,
      mediRel, mediStepAt, mediDecimals, mediSteps, mediBands, mediBandWidth,
      mediMaxRange, mediInnerR, mediCenter, mediFx, mediFy, mediStartAngle,
      mediArcLength, effSteps, psActive]

/-- C6 (counterexample): in the half-circle `MediKnobbler` of `knobbler.tsx`
(which has no deadzone early-return), a pointer at axis distance `5`, below
the deadzone `15`, with `precisionSteps = [2, 1]` produces the band index
`min(bands - 1, floor((5 - 15) / bandWidth)) = -1`: the lookup is
out of bounds (`undefined`, poisoning the result to `NaN`), not the first
band's step `2` that the claimed lower clamp would select. -/
theorem mediK_band_index_out_of_bounds :
    bandIdx (2 : ℤ)
        (({ precisionSteps := some [2, 1], orientation := .top } : MediKCfg)).deadzone
        (mkBandWidth { precisionSteps := some [2, 1], orientation := .top })
        (mkDist { precisionSteps := some [2, 1], orientation := .top } 80 40) = -1 ∧
      mkStepAt { precisionSteps := some [2, 1], orientation := .top }
        (mkDist { precisionSteps := some [2, 1], orientation := .top } 80 40) = none ∧
      (none : Option ℚ) ≠ some 2 := by
  have hd : mkDist { precisionSteps := some [2, 1], orientation := .top } 80 40 = 5 := by
    norm_num [mkDist, mkCenter]
  have hw : mkBandWidth { precisionSteps := some [2, 1], orientation := .top } = 51 / 2 := by
    norm_num [mkBandWidth, mkBands, mkSteps, mkMaxRange, mkInnerR, effSteps]
  have hidx : bandIdx (2 : ℤ) (15 : ℚ) (51 / 2) 5 = -1 := by
    unfold bandIdx
    rw [show ((5 : ℚ) - 15) / (51 / 2) = -20 / 51 by norm_num,
      show ⌊(-20 / 51 : ℚ)⌋ = -1 by norm_num]
    decide
  refine ⟨?_, ?_, by simp⟩
  · rw [hd, hw]; exact hidx
  · rw [hd]
    unfold mkStepAt
    rw [if_pos (by simp [psActive])]
    rw [show (mkBands { precisionSteps := some [2, 1], orientation := .top } : ℤ) = 2 by
      norm_num [mkBands, mkSteps, effSteps]]
    rw [show (({ precisionSteps := some [2, 1], orientation := .top } : MediKCfg)).deadzone
        = (15 : ℚ) from rfl, hw, hidx]
    simp [jsIndex]

/-- C6 (amended): in the radial variants (which return early when
`dist < deadzone`), for every distance at or beyond the deadzone and a
positive band width, the unclamped index `min(bands - 1, floor((dist -
deadzone) / bandWidth))` coincides with the claimed formula
`clamp(floor((dist - deadzone) / bandWidth), 0, bands - 1)`; the lower
clamp at 0 is absent from the code (see the counterexample for the
axis-based variant, where negative indices are reachable). -/
theorem knobbler_band_index_clamped (c : KnobCfg) (dist : ℝ)
    (hd : (c.deadzone : ℝ) ≤ dist) (hw : 0 < kBandWidth c) :
    bandIdx (kBands c : ℤ) (c.deadzone : ℝ) (kBandWidth c : ℝ) dist =
      max 0 (min ((kBands c : ℤ) - 1)
        ⌊(dist - (c.deadzone : ℝ)) / (kBandWidth c : ℝ)⌋) := by
  unfold bandIdx
  have hw' : (0 : ℝ) < (kBandWidth c : ℝ) := by exact_mod_cast hw
  have h0 : (0 : ℤ) ≤ ⌊(dist - (c.deadzone : ℝ)) / (kBandWidth c : ℝ)⌋ := by
    apply Int.floor_nonneg.mpr
    apply div_nonneg (by linarith) (le_of_lt hw')
  have hb : (0 : ℤ) ≤ (kBands c : ℤ) - 1 := by
    have := kBands_pos c
    omega
  omega

/-- Witness for `knobbler_band_index_clamped`: `precisionSteps = [2, 1]`,
distance `20` at deadzone `15`, band width `51/2`. -/
theorem knobbler_band_index_clamped_witness :
    bandIdx (kBands { precisionSteps := some [2, 1] } : ℤ)
        ((({ precisionSteps := some [2, 1] } : KnobCfg)).deadzone : ℝ)
        (kBandWidth { precisionSteps := some [2, 1] } : ℝ) 20 =
      max 0 (min ((kBands { precisionSteps := some [2, 1] } : ℤ) - 1)
        ⌊((20 : ℝ) - ((({ precisionSteps := some [2, 1] } : KnobCfg)).deadzone : ℝ)) /
          (kBandWidth { precisionSteps := some [2, 1] } : ℝ)⌋) :=
  knobbler_band_index_clamped { precisionSteps := some [2, 1] } 20
    (by norm_num) (by norm_num [kBandWidth, kBands, kSteps, kMaxRange, kInnerR, effSteps])

/-- C8: for every angle strictly inside the arc span (with `min < max`,
`0 < arcLength ≤ 360`), the `Knobbler` angle-to-raw-value mapping of
`valueFromPoint` followed by `angleForValue` returns the angle exactly:
`angleForValue (valueAtAngle a) = a`. -/
theorem angle_value_round_trip (c : KnobCfg) (a : ℝ)
    (hmm : (c.min : ℝ) < (c.max : ℝ))
    (hL0 : 0 < (c.arcLength : ℝ)) (hL : (c.arcLength : ℝ) ≤ 360)
    (ha1 : (c.startAngle : ℝ) < a) (ha2 : a < (c.startAngle : ℝ) + (c.arcLength : ℝ)) :
    kAngleForValue c (kValueAtAngle c a) = a := by
  have hrel : kRel c a = a - (c.startAngle : ℝ) := by
    unfold kRel jsMod jsTrunc
    have hle : (0 : ℝ) ≤ (a - (c.startAngle : ℝ) + 360) / 360 := by
      apply div_nonneg (by linarith) (by norm_num)
    rw [if_pos hle]
    have hfl : ⌊(a - (c.startAngle : ℝ) + 360) / 360⌋ = 1 := by
      refine Int.floor_eq_iff.mpr ⟨?_, ?_⟩
      · rw [show ((1 : ℤ) : ℝ) = 1 by norm_num]
        rw [le_div_iff₀ (by norm_num : (0:ℝ) < 360)]
        linarith
      · rw [show ((1 : ℤ) : ℝ) + 1 = 2 by norm_num]
        rw [div_lt_iff₀ (by norm_num : (0:ℝ) < 360)]
        linarith
    rw [hfl]
    rw [if_neg (by push_cast; linarith)]
    push_cast
    ring
  unfold kAngleForValue kValueAtAngle kRaw
  rw [hrel]
  have h1 : (c.arcLength : ℝ) ≠ 0 := ne_of_gt hL0
  have h2 : (c.max : ℝ) - (c.min : ℝ) ≠ 0 := sub_ne_zero.mpr (ne_of_gt hmm)
  field_simp
  ring

/-- Witness for `angle_value_round_trip` at the default configuration
(`min = 0`, `max = 12`, `startAngle = -90`, `arcLength = 360`), interior
angle `a = 0`. -/
theorem angle_value_round_trip_witness :
    kAngleForValue ({} : KnobCfg) (kValueAtAngle ({} : KnobCfg) 0) = 0 :=
  angle_value_round_trip {} 0 (by norm_num) (by norm_num) (by norm_num)
    (by norm_num) (by norm_num)

end Knobbler
